import Mathlib

/-!
Verification development for the boundary-domain layer of a 1-D reacting-flow
solver (Cantera `oneD/Inlet1D.h`) and the zero-D `ReactorBase.h` state accessors.

Real numbers (`doublereal`) are modelled as exact rationals; fallible C++
methods that throw `CanteraError` are modelled with `Except CanteraError`.
Definitions are transcribed from the headers under `src/`; member functions
whose bodies live in translation units not present under `src/` (the various
`eval`, `setMoleFractions` and chain-assembler implementations) are modelled
from the specification and carry a doc comment saying so.
-/

namespace Cantera

/-- `doublereal` modelled as exact rationals. -/
abbrev doublereal := ℚ

/-- Model of the `CanteraError` exception: the procedure that threw and the
message. -/
structure CanteraError where
  procedure : String
  msg : String
deriving DecidableEq, Repr

/-! ### Domain sizes and the chain assembler's offset assignment (C6) -/

/-- The size data of one domain in a chain: variables per grid point `nv`
and number of grid points `np` (0 or 1 for boundary domains). -/
structure DomainSize where
  nv : Nat
  np : Nat
deriving DecidableEq, Repr

/-- The number of unknowns a domain owns in the global state vector. -/
def DomainSize.size (d : DomainSize) : Nat := d.nv * d.np

/-- Modelled from the spec: the chain assembler (the solver's domain
container, whose implementation is not under `src/`) walks the chain
left-to-right and gives each domain the offset just past the previous
domain's slice: the first domain gets `off`, the next `off + nv*np`, and
so on. -/
def assignOffsets (off : Nat) : List DomainSize → List (Nat × DomainSize)
  | [] => []
  | d :: ds => (off, d) :: assignOffsets (off + d.size) ds

/-- Total number of unknowns over a chain of domains. -/
def totalSize (ds : List DomainSize) : Nat := (ds.map DomainSize.size).sum

/-- The half-open index range `[offset, offset + nv*np)` a placed domain owns. -/
def ownedRange (o : Nat × DomainSize) : Finset Nat :=
  Finset.Ico o.1 (o.1 + o.2.size)

lemma totalSize_cons (d : DomainSize) (ds : List DomainSize) :
    totalSize (d :: ds) = d.size + totalSize ds := by
  simp [totalSize]

lemma assignOffsets_ge (off : Nat) (ds : List DomainSize) :
    ∀ o ∈ assignOffsets off ds, off ≤ o.1 := by
  induction ds generalizing off with
  | nil => intro o ho; simp [assignOffsets] at ho
  | cons d ds ih =>
      intro o ho
      simp only [assignOffsets, List.mem_cons] at ho
      rcases ho with rfl | ho
      · exact le_refl _
      · exact le_trans (Nat.le_add_right _ _) (ih _ o ho)

lemma mem_ownedRange_assignOffsets (off : Nat) (ds : List DomainSize) (n : Nat) :
    (∃ o ∈ assignOffsets off ds, n ∈ ownedRange o) ↔
      off ≤ n ∧ n < off + totalSize ds := by
  induction ds generalizing off with
  | nil =>
      simp [assignOffsets, totalSize]
  | cons d ds ih =>
      constructor
      · rintro ⟨o, ho, hn⟩
        simp only [assignOffsets, List.mem_cons] at ho
        rcases ho with rfl | ho
        · simp only [ownedRange, Finset.mem_Ico] at hn
          rw [totalSize_cons]
          omega
        · have h := (ih (off + d.size)).mp ⟨o, ho, hn⟩
          rw [totalSize_cons]
          omega
      · rintro ⟨h1, h2⟩
        rw [totalSize_cons] at h2
        by_cases hcase : n < off + d.size
        · exact ⟨(off, d), by simp [assignOffsets],
            by simp only [ownedRange, Finset.mem_Ico]; omega⟩
        · obtain ⟨o, ho, hn⟩ := (ih (off + d.size)).mpr (by omega)
          exact ⟨o, by simp [assignOffsets, ho], hn⟩

lemma assignOffsets_pairwise_ordered (off : Nat) (ds : List DomainSize) :
    (assignOffsets off ds).Pairwise (fun a b => a.1 + a.2.size ≤ b.1) := by
  induction ds generalizing off with
  | nil => simp [assignOffsets]
  | cons d ds ih =>
      simp only [assignOffsets, List.pairwise_cons]
      exact ⟨fun o ho => assignOffsets_ge _ _ o ho, ih _⟩

/-- **C6**. For every chain of domains, after the assembler assigns offsets
starting at 0: the owned ranges `[offset, offset + nv*np)` cover exactly
`[0, totalSize)` (no gaps, no overlaps), they are pairwise disjoint, and
offsets are monotone left-to-right, for any mix of 0-, 1-, and multi-point
domains. -/
theorem offsets_partition_global_vector (ds : List DomainSize) :
    (∀ n : Nat, (∃ o ∈ assignOffsets 0 ds, n ∈ ownedRange o) ↔ n < totalSize ds) ∧
    (assignOffsets 0 ds).Pairwise (fun a b => Disjoint (ownedRange a) (ownedRange b)) ∧
    (assignOffsets 0 ds).Pairwise (fun a b => a.1 ≤ b.1) := by
  refine ⟨?_, ?_, ?_⟩
  · intro n
    have h := mem_ownedRange_assignOffsets 0 ds n
    simpa using h
  · refine (assignOffsets_pairwise_ordered 0 ds).imp ?_
    intro a b hab
    simp only [ownedRange, Finset.disjoint_left, Finset.mem_Ico]
    intro n hn hn2
    omega
  · refine (assignOffsets_pairwise_ordered 0 ds).imp ?_
    intro a b hab
    omega

/-! ### Inlet1D (C1, C10) -/

/-- The inlet boundary domain `Inlet1D`, with the `Bdry1D` members it uses
(`m_temp`, `m_mdot`) flattened in.  `m_yin` is the resolved mass-fraction
array, `m_V0` the spreading rate, `m_ilr` the facing tag (`LeftInlet = 1`,
`RightInlet = -1`), `m_xstr` the composition string last given. -/
structure Inlet1D where
  m_temp : doublereal
  m_mdot : doublereal
  m_ilr : Int
  m_V0 : doublereal
  m_nsp : Nat
  m_yin : List doublereal
  m_xstr : String
deriving DecidableEq, Repr

/-- `Inlet1D::_getInitialSoln`: writes `x[0] = m_mdot`, `x[1] = m_temp`
(transcribed from the header). -/
def Inlet1D._getInitialSoln (d : Inlet1D) : doublereal × doublereal :=
  (d.m_mdot, d.m_temp)

/-- `Inlet1D::_finalize`: the body in the header is empty — the state is
returned unchanged. -/
def Inlet1D._finalize (d : Inlet1D) (x : List doublereal) : Inlet1D := d

/-- `Inlet1D::massFraction(k)`: returns `m_yin[k]` (transcribed from the
header; C++ does no bounds check, out-of-range reads default to 0 here). -/
def Inlet1D.massFraction (d : Inlet1D) (k : Nat) : doublereal :=
  d.m_yin.getD k 0

/-- Modelled from the spec: `Inlet1D::eval` (implementation not under
`src/`) for an inlet attached to a flow using the free mass-flux
formulation.  Slot 0 pins the trial mdot to the specified `m_mdot`
(Dirichlet); slot 1 pins the trial temperature to `m_temp` when the
spreading rate is zero, otherwise it enforces zero gradient against the
attached flow's first interior temperature `tFlowInterior`.  Both rows are
algebraic: the reciprocal-timestep `rdt` does not enter. -/
def Inlet1D.eval (d : Inlet1D) (tFlowInterior : doublereal)
    (x : doublereal × doublereal) (rdt : doublereal) :
    doublereal × doublereal :=
  (x.1 - d.m_mdot,
   if d.m_V0 = 0 then x.2 - d.m_temp else x.2 - tFlowInterior)

/-- **C1**. For an unconstrained inlet (spreading rate zero, free mass-flux
flow), `eval` writes Dirichlet residuals: slot 0 is trial mdot minus
specified mdot and slot 1 is trial T minus specified T; at the initial
solution produced by `_getInitialSoln` both slots are exactly zero, and a
perturbed trial gives a residual equal to the perturbation (linear) and
nonzero whenever the perturbation is nonzero. -/
theorem inlet_eval_dirichlet (d : Inlet1D) (tF rdt : doublereal)
    (h : d.m_V0 = 0) :
    d.eval tF d._getInitialSoln rdt = (0, 0) ∧
    (∀ e1 e2 : doublereal,
      d.eval tF (d.m_mdot + e1, d.m_temp + e2) rdt = (e1, e2)) ∧
    (∀ e1 e2 : doublereal, (e1, e2) ≠ (0, 0) →
      d.eval tF (d.m_mdot + e1, d.m_temp + e2) rdt ≠ (0, 0)) := by
  refine ⟨?_, ?_, ?_⟩
  · simp [Inlet1D.eval, Inlet1D._getInitialSoln, h]
  · intro e1 e2
    simp [Inlet1D.eval, h]
  · intro e1 e2 hne
    simp only [Inlet1D.eval, h, if_pos]
    simpa using hne

/-- Witness for C1 at a concrete inlet: mdot 1/2, T 300, spreading rate 0. -/
theorem inlet_eval_dirichlet_witness :
    (Inlet1D.mk 300 (1/2) 1 0 1 [1] "").eval 400
        (Inlet1D.mk 300 (1/2) 1 0 1 [1] "")._getInitialSoln 7 = (0, 0) ∧
    (∀ e1 e2 : doublereal,
      (Inlet1D.mk 300 (1/2) 1 0 1 [1] "").eval 400
        ((1:ℚ)/2 + e1, 300 + e2) 7 = (e1, e2)) ∧
    (∀ e1 e2 : doublereal, (e1, e2) ≠ (0, 0) →
      (Inlet1D.mk 300 (1/2) 1 0 1 [1] "").eval 400
        ((1:ℚ)/2 + e1, 300 + e2) 7 ≠ (0, 0)) :=
  inlet_eval_dirichlet (Inlet1D.mk 300 (1/2) 1 0 1 [1] "") 400 7 rfl

/-- **C10**. `Inlet1D::_finalize` is a no-op: for every accepted solution
vector it leaves the whole state, and in particular `m_mdot`, `m_temp`,
`m_yin` and `m_V0`, unchanged. -/
theorem inlet_finalize_noop (d : Inlet1D) (x : List doublereal) :
    d._finalize x = d ∧
    (d._finalize x).m_mdot = d.m_mdot ∧
    (d._finalize x).m_temp = d.m_temp ∧
    (d._finalize x).m_yin = d.m_yin ∧
    (d._finalize x).m_V0 = d.m_V0 :=
  ⟨rfl, rfl, rfl, rfl, rfl⟩

/-! ### ReactingSurf1D (C2, C9) -/

/-- Model of `SurfPhase`: the surface phase exposes its species count and
current coverages. -/
structure SurfPhase where
  nSpecies : Nat
  coverages : List doublereal
deriving DecidableEq, Repr

/-- Model of `InterfaceKinetics` as the reacting surface sees it: the index
of the surface phase, and the surface phase object `thermo(surfacePhaseIndex)`
resolves to. -/
structure InterfaceKinetics where
  surfacePhaseIndex : Nat
  thermo : SurfPhase
deriving DecidableEq, Repr

/-- The reacting surface domain `ReactingSurf1D`, with the `Bdry1D`
member it uses (`m_temp`) flattened in. -/
structure ReactingSurf1D where
  m_temp : doublereal
  m_kin : Option InterfaceKinetics
  m_sphase : SurfPhase
  m_surfindex : Nat
  m_nsp : Nat
  m_enabled : Bool
  m_fixed_cov : List doublereal
deriving DecidableEq, Repr

/-- `ReactingSurf1D::setKineticsMgr` (transcribed from the header): stores
the kinetics manager, resolves the surface phase index and phase, sets the
species count from the surface phase, and unconditionally sets
`m_enabled = true`. -/
def ReactingSurf1D.setKineticsMgr (d : ReactingSurf1D)
    (kin : InterfaceKinetics) : ReactingSurf1D :=
  { d with
    m_kin := some kin
    m_surfindex := kin.surfacePhaseIndex
    m_sphase := kin.thermo
    m_nsp := kin.thermo.nSpecies
    m_enabled := true }

/-- `ReactingSurf1D::enableCoverageEquations` (transcribed from the
header): sets the enabled flag. -/
def ReactingSurf1D.enableCoverageEquations (d : ReactingSurf1D)
    (docov : Bool) : ReactingSurf1D :=
  { d with m_enabled := docov }

/-- `ReactingSurf1D::_finalize` (transcribed from the header):
`copy(x+1, x+1+m_nsp, m_fixed_cov.begin())` overwrites the first `m_nsp`
entries of `m_fixed_cov` with the coverage slice of the accepted solution. -/
def ReactingSurf1D._finalize (d : ReactingSurf1D) (x : List doublereal) :
    ReactingSurf1D :=
  { d with m_fixed_cov :=
      (x.drop 1).take d.m_nsp ++ d.m_fixed_cov.drop d.m_nsp }

/-- `ReactingSurf1D::_getInitialSoln` (transcribed from the header):
`x[0] = m_temp` and the surface phase's coverages fill the remaining slots. -/
def ReactingSurf1D._getInitialSoln (d : ReactingSurf1D) : List doublereal :=
  d.m_temp :: d.m_sphase.coverages.take d.m_nsp

/-- Modelled from the spec: `ReactingSurf1D::eval` (implementation not under
`src/`).  Slot 0 is the Dirichlet temperature residual, trial T minus
`m_temp`.  Coverage slot `k+1`: when coverage equations are enabled, the
external evaluator's net production rate of surface species `k` at the trial
temperature and trial coverages, minus the backward-Euler term
`rdt * (trial − previous accepted)`; when disabled, the pure hold
trial coverage minus `m_fixed_cov[k]`.  The evaluator is passed in as the
function `sdot` (temperature → coverages → species → rate). -/
def ReactingSurf1D.eval (d : ReactingSurf1D)
    (sdot : doublereal → List doublereal → Nat → doublereal)
    (x prevSoln : List doublereal) (rdt : doublereal) : List doublereal :=
  (x.getD 0 0 - d.m_temp) ::
    (List.range d.m_nsp).map (fun k =>
      if d.m_enabled then
        sdot (x.getD 0 0) (x.drop 1) k
          - rdt * (x.getD (k+1) 0 - prevSoln.getD (k+1) 0)
      else
        x.getD (k+1) 0 - d.m_fixed_cov.getD k 0)

lemma getD_range_map (f : Nat → doublereal) (n k : Nat) (hk : k < n) :
    ((List.range n).map f).getD k 0 = f k := by
  rw [List.getD_eq_getElem _ _ (by simpa using hk)]
  simp

lemma getD_drop_one (l : List doublereal) (k : Nat) :
    (l.drop 1).getD k 0 = l.getD (k+1) 0 := by
  cases l with
  | nil => simp
  | cons a t => simp [List.getD_cons_succ]

lemma getD_take_append (l rest : List doublereal) (n k : Nat)
    (hk : k < n) (hn : n ≤ l.length) :
    (l.take n ++ rest).getD k 0 = l.getD k 0 := by
  have hlen : k < (l.take n).length := by
    simp only [List.length_take]
    omega
  have hl : k < l.length := by omega
  rw [List.getD_append _ _ _ _ hlen, List.getD_eq_getElem _ _ hlen,
    List.getD_eq_getElem _ _ hl]
  simp

lemma eval_disabled_slot (d : ReactingSurf1D)
    (sdot : doublereal → List doublereal → Nat → doublereal)
    (x prevSoln : List doublereal) (rdt : doublereal) (k : Nat)
    (hen : d.m_enabled = false) (hk : k < d.m_nsp) :
    (d.eval sdot x prevSoln rdt).getD (k+1) 0
      = x.getD (k+1) 0 - d.m_fixed_cov.getD k 0 := by
  simp only [ReactingSurf1D.eval, List.getD_cons_succ]
  rw [getD_range_map _ _ _ hk]
  simp [hen]

/-- **C2**. For a reacting surface with coverage equations disabled, every
coverage slot of the residual is exactly (trial coverage − held coverage):
against the member `m_fixed_cov`, against the value captured by the last
`_finalize` call, and with no dependence on the trial temperature slot. -/
theorem reacting_surf_disabled_cov_hold (d : ReactingSurf1D)
    (sdot : doublereal → List doublereal → Nat → doublereal)
    (sol x prevSoln : List doublereal) (rdt t' : doublereal) (k : Nat)
    (hen : d.m_enabled = false) (hk : k < d.m_nsp)
    (hsol : d.m_nsp + 1 ≤ sol.length) :
    (d.eval sdot x prevSoln rdt).getD (k+1) 0
      = x.getD (k+1) 0 - d.m_fixed_cov.getD k 0 ∧
    ((d._finalize sol).eval sdot x prevSoln rdt).getD (k+1) 0
      = x.getD (k+1) 0 - sol.getD (k+1) 0 ∧
    (d.eval sdot (t' :: x.drop 1) prevSoln rdt).getD (k+1) 0
      = (d.eval sdot x prevSoln rdt).getD (k+1) 0 := by
  refine ⟨eval_disabled_slot d sdot x prevSoln rdt k hen hk, ?_, ?_⟩
  · rw [eval_disabled_slot (d._finalize sol) sdot x prevSoln rdt k hen hk]
    have hcov : (d._finalize sol).m_fixed_cov.getD k 0 = sol.getD (k+1) 0 := by
      show ((sol.drop 1).take d.m_nsp ++ d.m_fixed_cov.drop d.m_nsp).getD k 0
        = sol.getD (k+1) 0
      rw [getD_take_append _ _ _ _ hk (by simp; omega), getD_drop_one]
    rw [hcov]
  · rw [eval_disabled_slot d sdot _ prevSoln rdt k hen hk,
      eval_disabled_slot d sdot x prevSoln rdt k hen hk,
      List.getD_cons_succ, getD_drop_one]

/-- Witness for C2 at a concrete reacting surface with 2 surface species,
coverage equations disabled, held coverages [1/5, 4/5]. -/
theorem reacting_surf_disabled_cov_hold_witness :
    ((ReactingSurf1D.mk 900 none (SurfPhase.mk 2 [1/2, 1/2]) 0 2 false
        [1/5, 4/5]).eval (fun _ _ _ => 0) [300, 1/4, 3/4] [0, 0, 0] 5).getD 1 0
      = ([300, 1/4, 3/4] : List doublereal).getD 1 0
        - ([1/5, 4/5] : List doublereal).getD 0 0 ∧
    (((ReactingSurf1D.mk 900 none (SurfPhase.mk 2 [1/2, 1/2]) 0 2 false
        [1/5, 4/5])._finalize [7, 1/3, 2/3]).eval (fun _ _ _ => 0)
        [300, 1/4, 3/4] [0, 0, 0] 5).getD 1 0
      = ([300, 1/4, 3/4] : List doublereal).getD 1 0
        - ([7, 1/3, 2/3] : List doublereal).getD 1 0 ∧
    ((ReactingSurf1D.mk 900 none (SurfPhase.mk 2 [1/2, 1/2]) 0 2 false
        [1/5, 4/5]).eval (fun _ _ _ => 0)
        (111 :: ([300, 1/4, 3/4] : List doublereal).drop 1) [0, 0, 0] 5).getD 1 0
      = ((ReactingSurf1D.mk 900 none (SurfPhase.mk 2 [1/2, 1/2]) 0 2 false
        [1/5, 4/5]).eval (fun _ _ _ => 0) [300, 1/4, 3/4] [0, 0, 0] 5).getD 1 0 :=
  reacting_surf_disabled_cov_hold
    (ReactingSurf1D.mk 900 none (SurfPhase.mk 2 [1/2, 1/2]) 0 2 false [1/5, 4/5])
    (fun _ _ _ => 0) [7, 1/3, 2/3] [300, 1/4, 3/4] [0, 0, 0] 5 111 0
    rfl (by decide) (by decide)

/-- **C9**. `setKineticsMgr` unconditionally enables the coverage equations
and sets the surface species count from the surface phase; in particular a
prior `enableCoverageEquations false` is silently overridden. -/
theorem setKineticsMgr_enables_coverage (d : ReactingSurf1D)
    (kin : InterfaceKinetics) :
    (d.setKineticsMgr kin).m_enabled = true ∧
    (d.setKineticsMgr kin).m_nsp = kin.thermo.nSpecies ∧
    (d.setKineticsMgr kin).m_surfindex = kin.surfacePhaseIndex ∧
    ((d.enableCoverageEquations false).setKineticsMgr kin).m_enabled = true :=
  ⟨rfl, rfl, rfl, rfl⟩

/-! ### The remaining boundary variants (C3, C4, C5) -/

/-- The base boundary class `Bdry1D`: temperature and mass flow rate. -/
structure Bdry1D where
  m_temp : doublereal
  m_mdot : doublereal
deriving DecidableEq, Repr

/-- `Bdry1D::err` (transcribed from the header): the `CanteraError` thrown
by every base-class method a variant does not override. -/
def Bdry1D.err (method : String) : CanteraError :=
  { procedure := "Bdry1D::" ++ method
    msg := "attempt to call base class method " ++ method }

/-- The symmetry plane `Symm1D`: only the `Bdry1D` members. -/
structure Symm1D where
  m_temp : doublereal
deriving DecidableEq, Repr

/-- The simple outlet `Outlet1D`: only the `Bdry1D` members. -/
structure Outlet1D where
  m_temp : doublereal
deriving DecidableEq, Repr

/-- The outlet with reservoir composition `OutletRes1D`: `Bdry1D` members
plus the stored far-field mass fractions `m_yres`. -/
structure OutletRes1D where
  m_temp : doublereal
  m_nsp : Nat
  m_yres : List doublereal
  m_xstr : String
deriving DecidableEq, Repr

/-- The non-reacting surface `Surf1D`: only the `Bdry1D` members. -/
structure Surf1D where
  m_temp : doublereal
deriving DecidableEq, Repr

/-- Modelled from the spec: `Symm1D::eval` (implementation not under
`src/`): the single residual forces zero gradient of temperature against the
attached flow's nearest interior value; algebraic, so `rdt` does not
enter. -/
def Symm1D.eval (d : Symm1D) (tFlowInterior x : doublereal)
    (rdt : doublereal) : doublereal :=
  x - tFlowInterior

/-- Modelled from the spec: `Outlet1D::eval` (implementation not under
`src/`): zero-gradient outflow condition on temperature against the
adjoining flow's nearest interior point; algebraic. -/
def Outlet1D.eval (d : Outlet1D) (tFlowInterior x : doublereal)
    (rdt : doublereal) : doublereal :=
  x - tFlowInterior

/-- Modelled from the spec: `OutletRes1D::eval` (implementation not under
`src/`): identical temperature treatment to the simple outlet; the stored
reservoir composition is never solved here; algebraic. -/
def OutletRes1D.eval (d : OutletRes1D) (tFlowInterior x : doublereal)
    (rdt : doublereal) : doublereal :=
  x - tFlowInterior

/-- Modelled from the spec: `Surf1D::eval` (implementation not under
`src/`): pure Dirichlet condition, trial temperature minus the specified
wall temperature; algebraic. -/
def Surf1D.eval (d : Surf1D) (x : doublereal) (rdt : doublereal) :
    doublereal :=
  x - d.m_temp

/-- **C3**. With `rdt = 0`, `eval` yields exactly the steady residual for
every boundary variant.  The purely algebraic rows — the inlet's Dirichlet
pair, the symmetry, outlet and outlet-with-reservoir continuity conditions,
the non-reacting surface Dirichlet row, and the reacting surface's
temperature row — are identical for every value of `rdt`; only the enabled
coverage rows subtract the backward-Euler term
`rdt * (trial[k] − previous_accepted[k])` from the steady residual. -/
theorem rdt_only_touches_differential_rows
    (di : Inlet1D) (tF : doublereal) (xi : doublereal × doublereal)
    (dsy : Symm1D) (dout : Outlet1D) (dres : OutletRes1D) (dsf : Surf1D)
    (xt : doublereal) (dr : ReactingSurf1D)
    (sdot : doublereal → List doublereal → Nat → doublereal)
    (x prevSoln : List doublereal) (rdt : doublereal) (k : Nat)
    (hk : k < dr.m_nsp) (hen : dr.m_enabled = true) :
    di.eval tF xi rdt = di.eval tF xi 0 ∧
    dsy.eval tF xt rdt = dsy.eval tF xt 0 ∧
    dout.eval tF xt rdt = dout.eval tF xt 0 ∧
    dres.eval tF xt rdt = dres.eval tF xt 0 ∧
    dsf.eval xt rdt = dsf.eval xt 0 ∧
    (dr.eval sdot x prevSoln rdt).getD 0 0
      = (dr.eval sdot x prevSoln 0).getD 0 0 ∧
    (dr.eval sdot x prevSoln rdt).getD (k+1) 0
      = (dr.eval sdot x prevSoln 0).getD (k+1) 0
        - rdt * (x.getD (k+1) 0 - prevSoln.getD (k+1) 0) := by
  refine ⟨rfl, rfl, rfl, rfl, rfl, rfl, ?_⟩
  simp only [ReactingSurf1D.eval, List.getD_cons_succ]
  rw [getD_range_map _ _ _ hk, getD_range_map _ _ _ hk]
  simp [hen]

/-- Witness for C3 at a concrete instance of every boundary variant, with
an enabled 2-species reacting surface and `rdt = 5`. -/
theorem rdt_only_touches_differential_rows_witness :
    (Inlet1D.mk 300 (1/2) 1 0 1 [1] "").eval 400 (2, 350) 5
      = (Inlet1D.mk 300 (1/2) 1 0 1 [1] "").eval 400 (2, 350) 0 ∧
    (Symm1D.mk 300).eval 400 350 5 = (Symm1D.mk 300).eval 400 350 0 ∧
    (Outlet1D.mk 300).eval 400 350 5 = (Outlet1D.mk 300).eval 400 350 0 ∧
    (OutletRes1D.mk 300 1 [1] "").eval 400 350 5
      = (OutletRes1D.mk 300 1 [1] "").eval 400 350 0 ∧
    (Surf1D.mk 300).eval 350 5 = (Surf1D.mk 300).eval 350 0 ∧
    ((ReactingSurf1D.mk 900 none (SurfPhase.mk 2 [1/2, 1/2]) 0 2 true
        [1/5, 4/5]).eval (fun t c j => t + c.getD j 0)
        [300, 1/4, 3/4] [299, 1/5, 4/5] 5).getD 0 0
      = ((ReactingSurf1D.mk 900 none (SurfPhase.mk 2 [1/2, 1/2]) 0 2 true
        [1/5, 4/5]).eval (fun t c j => t + c.getD j 0)
        [300, 1/4, 3/4] [299, 1/5, 4/5] 0).getD 0 0 ∧
    ((ReactingSurf1D.mk 900 none (SurfPhase.mk 2 [1/2, 1/2]) 0 2 true
        [1/5, 4/5]).eval (fun t c j => t + c.getD j 0)
        [300, 1/4, 3/4] [299, 1/5, 4/5] 5).getD 1 0
      = ((ReactingSurf1D.mk 900 none (SurfPhase.mk 2 [1/2, 1/2]) 0 2 true
        [1/5, 4/5]).eval (fun t c j => t + c.getD j 0)
        [300, 1/4, 3/4] [299, 1/5, 4/5] 0).getD 1 0
        - 5 * (([300, 1/4, 3/4] : List doublereal).getD 1 0
            - ([299, 1/5, 4/5] : List doublereal).getD 1 0) :=
  rdt_only_touches_differential_rows
    (Inlet1D.mk 300 (1/2) 1 0 1 [1] "") 400 (2, 350)
    (Symm1D.mk 300) (Outlet1D.mk 300) (OutletRes1D.mk 300 1 [1] "")
    (Surf1D.mk 300) 350
    (ReactingSurf1D.mk 900 none (SurfPhase.mk 2 [1/2, 1/2]) 0 2 true [1/5, 4/5])
    (fun t c j => t + c.getD j 0) [300, 1/4, 3/4] [299, 1/5, 4/5] 5 0
    (by decide) rfl

/-! ### Frame effect of eval (C4) -/

/-- Modelled from the spec: a full `eval` call on an inlet, returning the
residual together with the domain state after the call.  The lifecycle
contract says `eval` is read-only with respect to the persistent members,
so the state comes back unchanged. -/
def Inlet1D.evalCall (d : Inlet1D) (tFlowInterior : doublereal)
    (x : doublereal × doublereal) (rdt : doublereal) :
    Inlet1D × (doublereal × doublereal) :=
  (d, d.eval tFlowInterior x rdt)

/-- Modelled from the spec: a full `eval` call on a symmetry plane;
read-only with respect to persistent state. -/
def Symm1D.evalCall (d : Symm1D) (tFlowInterior x rdt : doublereal) :
    Symm1D × doublereal :=
  (d, d.eval tFlowInterior x rdt)

/-- Modelled from the spec: a full `eval` call on a simple outlet;
read-only with respect to persistent state. -/
def Outlet1D.evalCall (d : Outlet1D) (tFlowInterior x rdt : doublereal) :
    Outlet1D × doublereal :=
  (d, d.eval tFlowInterior x rdt)

/-- Modelled from the spec: a full `eval` call on an outlet with reservoir
composition; read-only with respect to persistent state. -/
def OutletRes1D.evalCall (d : OutletRes1D) (tFlowInterior x rdt : doublereal) :
    OutletRes1D × doublereal :=
  (d, d.eval tFlowInterior x rdt)

/-- Modelled from the spec: a full `eval` call on a non-reacting surface;
read-only with respect to persistent state. -/
def Surf1D.evalCall (d : Surf1D) (x rdt : doublereal) :
    Surf1D × doublereal :=
  (d, d.eval x rdt)

/-- Modelled from the spec: a full `eval` call on a reacting surface;
read-only with respect to persistent state. -/
def ReactingSurf1D.evalCall (d : ReactingSurf1D)
    (sdot : doublereal → List doublereal → Nat → doublereal)
    (x prevSoln : List doublereal) (rdt : doublereal) :
    ReactingSurf1D × List doublereal :=
  (d, d.eval sdot x prevSoln rdt)

/-- `Bdry1D::setTemperature` as inherited by the reacting surface
(transcribed from the header): overwrites `m_temp`. -/
def ReactingSurf1D.setTemperature (d : ReactingSurf1D) (t : doublereal) :
    ReactingSurf1D :=
  { d with m_temp := t }

/-- **C4**. For every boundary variant and every trial vector, an `eval`
call leaves the domain's persistent stored members (`m_temp`, `m_mdot`,
stored mass fractions, fixed coverages) unchanged — the returned state is
the original one; the members change only through an explicit `_finalize`
call (shown for the reacting surface's `m_fixed_cov`) or a configuration
setter (shown for `setTemperature`). -/
theorem eval_preserves_persistent_state
    (di : Inlet1D) (tF : doublereal) (xi : doublereal × doublereal)
    (dsy : Symm1D) (dout : Outlet1D) (dres : OutletRes1D) (dsf : Surf1D)
    (xt : doublereal) (dr : ReactingSurf1D)
    (sdot : doublereal → List doublereal → Nat → doublereal)
    (x prevSoln sol : List doublereal) (rdt t : doublereal) :
    (di.evalCall tF xi rdt).1 = di ∧
    (dsy.evalCall tF xt rdt).1 = dsy ∧
    (dout.evalCall tF xt rdt).1 = dout ∧
    (dres.evalCall tF xt rdt).1 = dres ∧
    (dsf.evalCall xt rdt).1 = dsf ∧
    (dr.evalCall sdot x prevSoln rdt).1 = dr ∧
    (dr._finalize sol).m_fixed_cov
      = (sol.drop 1).take dr.m_nsp ++ dr.m_fixed_cov.drop dr.m_nsp ∧
    (dr.setTemperature t).m_temp = t :=
  ⟨rfl, rfl, rfl, rfl, rfl, rfl, rfl, rfl⟩

/-! ### Base-class composition methods throw (C5) -/

/-- `Bdry1D::setMoleFractions` (both the string and the array overload,
transcribed from the header): throws via `err`; no updated state is ever
produced. -/
def Bdry1D.setMoleFractions (d : Bdry1D) (xin : String ⊕ List doublereal) :
    Except CanteraError Bdry1D :=
  .error (Bdry1D.err "setMoleFractions")

/-- `Bdry1D::massFraction` (transcribed from the header): throws via
`err`. -/
def Bdry1D.massFraction (d : Bdry1D) (k : Nat) :
    Except CanteraError doublereal :=
  .error (Bdry1D.err "massFraction")

/-- `Symm1D` does not override `setMoleFractions`; a call dispatches to the
base-class implementation, which throws. -/
def Symm1D.setMoleFractions (d : Symm1D) (xin : String ⊕ List doublereal) :
    Except CanteraError Symm1D :=
  .error (Bdry1D.err "setMoleFractions")

/-- `Symm1D` does not override `massFraction`; the base class throws. -/
def Symm1D.massFraction (d : Symm1D) (k : Nat) :
    Except CanteraError doublereal :=
  .error (Bdry1D.err "massFraction")

/-- `Outlet1D` does not override `setMoleFractions`; the base class
throws. -/
def Outlet1D.setMoleFractions (d : Outlet1D) (xin : String ⊕ List doublereal) :
    Except CanteraError Outlet1D :=
  .error (Bdry1D.err "setMoleFractions")

/-- `Outlet1D` does not override `massFraction`; the base class throws. -/
def Outlet1D.massFraction (d : Outlet1D) (k : Nat) :
    Except CanteraError doublereal :=
  .error (Bdry1D.err "massFraction")

/-- `Surf1D` does not override `setMoleFractions`; the base class
throws. -/
def Surf1D.setMoleFractions (d : Surf1D) (xin : String ⊕ List doublereal) :
    Except CanteraError Surf1D :=
  .error (Bdry1D.err "setMoleFractions")

/-- `Surf1D` does not override `massFraction`; the base class throws. -/
def Surf1D.massFraction (d : Surf1D) (k : Nat) :
    Except CanteraError doublereal :=
  .error (Bdry1D.err "massFraction")

/-- **C5**. Calling a composition method on a boundary variant with no
composition state — the `Bdry1D` base, the symmetry plane, the simple
outlet or the non-reacting surface — raises the base-class `CanteraError`
immediately, and no updated domain state is ever produced (the call has no
effect on stored state). -/
theorem composition_methods_throw_on_bare_variants (db : Bdry1D)
    (dsy : Symm1D) (dout : Outlet1D) (dsf : Surf1D)
    (xin : String ⊕ List doublereal) (k : Nat) :
    db.setMoleFractions xin = .error (Bdry1D.err "setMoleFractions") ∧
    db.massFraction k = .error (Bdry1D.err "massFraction") ∧
    dsy.setMoleFractions xin = .error (Bdry1D.err "setMoleFractions") ∧
    dsy.massFraction k = .error (Bdry1D.err "massFraction") ∧
    dout.setMoleFractions xin = .error (Bdry1D.err "setMoleFractions") ∧
    dout.massFraction k = .error (Bdry1D.err "massFraction") ∧
    dsf.setMoleFractions xin = .error (Bdry1D.err "setMoleFractions") ∧
    dsf.massFraction k = .error (Bdry1D.err "massFraction") ∧
    (∀ d2 : Bdry1D, db.setMoleFractions xin ≠ .ok d2) ∧
    (∀ d2 : Symm1D, dsy.setMoleFractions xin ≠ .ok d2) ∧
    (∀ d2 : Outlet1D, dout.setMoleFractions xin ≠ .ok d2) ∧
    (∀ d2 : Surf1D, dsf.setMoleFractions xin ≠ .ok d2) := by
  refine ⟨rfl, rfl, rfl, rfl, rfl, rfl, rfl, rfl, ?_, ?_, ?_, ?_⟩
  · intro d2
    simp [Bdry1D.setMoleFractions]
  · intro d2
    simp [Symm1D.setMoleFractions]
  · intro d2
    simp [Outlet1D.setMoleFractions]
  · intro d2
    simp [Surf1D.setMoleFractions]

/-! ### Inlet composition round-trip (C7) -/

/-- The molar-mass-weighted total `Σ_j X_j W_j` of a mole-fraction vector
`X` against the molar masses `W` of the attached phase's species. -/
def sumXW (W X : List doublereal) : doublereal :=
  ((List.range W.length).map (fun k => X.getD k 0 * W.getD k 0)).sum

/-- Modelled from the spec: the mole-fraction specification `X` resolved
into mass fractions using the molar masses `W`:
`Y_k = X_k W_k / Σ_j X_j W_j`. -/
def moleToMassFractions (W X : List doublereal) : List doublereal :=
  (List.range W.length).map (fun k => X.getD k 0 * W.getD k 0 / sumXW W X)

/-- Modelled from the spec: `Inlet1D::setMoleFractions(doublereal* xin)`
(implementation not under `src/`): resolves the mole fractions into mass
fractions via the phase molar masses and stores them in `m_yin`. -/
def Inlet1D.setMoleFractions (d : Inlet1D) (W X : List doublereal) :
    Inlet1D :=
  { d with m_yin := moleToMassFractions W X, m_nsp := W.length }

/-- Modelled from the spec: a composition string parsed into (species name,
mole amount) pairs; the resulting mole vector holds, at each species index
of the phase's name list, the total amount the string gives that name. -/
def compositionMoles (names : List String)
    (spec : List (String × doublereal)) : List doublereal :=
  names.map (fun nm => ((spec.filter (fun p => p.1 = nm)).map Prod.snd).sum)

/-- Modelled from the spec: `Inlet1D::setMoleFractions(string xin)`
(implementation not under `src/`): parses the composition string and stores
the resolved mass fractions, exactly as the array overload does on the
parsed mole vector. -/
def Inlet1D.setMoleFractionsString (d : Inlet1D) (W : List doublereal)
    (names : List String) (spec : List (String × doublereal)) : Inlet1D :=
  d.setMoleFractions W (compositionMoles names spec)

lemma sum_map_div (l : List Nat) (f : Nat → doublereal) (c : doublereal) :
    (l.map (fun k => f k / c)).sum = (l.map f).sum / c := by
  induction l with
  | nil => simp
  | cons a l ih => simp [ih, add_div]

/-- **C7**. Inlet composition round-trip: after setting the composition,
every per-species `massFraction k` read-back returns exactly the stored
`m_yin` value, which is the mole-fraction input converted to a mass
fraction with the molar masses (`X_k W_k / Σ_j X_j W_j`); the read-back
values sum to 1; and setting by a composition string gives the read-back
the string's mole amounts converted the same way. -/
theorem inlet_composition_roundtrip (d : Inlet1D) (W X : List doublereal)
    (names : List String) (spec : List (String × doublereal)) (k : Nat)
    (hk : k < W.length) (hS : sumXW W X ≠ 0) :
    (d.setMoleFractions W X).massFraction k
      = X.getD k 0 * W.getD k 0 / sumXW W X ∧
    (d.setMoleFractions W X).massFraction k
      = (d.setMoleFractions W X).m_yin.getD k 0 ∧
    ((List.range W.length).map
        ((d.setMoleFractions W X).massFraction)).sum = 1 ∧
    (d.setMoleFractionsString W names spec).massFraction k
      = (compositionMoles names spec).getD k 0 * W.getD k 0
          / sumXW W (compositionMoles names spec) := by
  have hread : ∀ Y : List doublereal, ∀ j, j < W.length →
      (d.setMoleFractions W Y).massFraction j
        = Y.getD j 0 * W.getD j 0 / sumXW W Y := by
    intro Y j hj
    show (moleToMassFractions W Y).getD j 0 = _
    rw [moleToMassFractions, getD_range_map _ _ _ hj]
  refine ⟨hread X k hk, rfl, ?_, hread _ k hk⟩
  have hcong : (List.range W.length).map
      ((d.setMoleFractions W X).massFraction)
      = (List.range W.length).map
        (fun j => X.getD j 0 * W.getD j 0 / sumXW W X) := by
    apply List.map_congr_left
    intro j hj
    exact hread X j (List.mem_range.mp hj)
  rw [hcong, sum_map_div, ← sumXW, div_self hS]

/-- Witness for C7: two species with molar masses [2, 16], mole
specification [3, 1], so `Σ X W = 22`; species 0 reads back 6/22 = 3/11. -/
theorem inlet_composition_roundtrip_witness :
    ((Inlet1D.mk 300 (1/2) 1 0 2 [] "").setMoleFractions [2, 16]
        [3, 1]).massFraction 0
      = ([3, 1] : List doublereal).getD 0 0 * ([2, 16] : List doublereal).getD 0 0
          / sumXW [2, 16] [3, 1] ∧
    ((Inlet1D.mk 300 (1/2) 1 0 2 [] "").setMoleFractions [2, 16]
        [3, 1]).massFraction 0
      = ((Inlet1D.mk 300 (1/2) 1 0 2 [] "").setMoleFractions [2, 16]
          [3, 1]).m_yin.getD 0 0 ∧
    ((List.range ([2, 16] : List doublereal).length).map
        (((Inlet1D.mk 300 (1/2) 1 0 2 [] "").setMoleFractions [2, 16]
          [3, 1]).massFraction)).sum = 1 ∧
    ((Inlet1D.mk 300 (1/2) 1 0 2 [] "").setMoleFractionsString [2, 16]
        ["H2", "CH4"] [("H2", 3), ("CH4", 1)]).massFraction 0
      = (compositionMoles ["H2", "CH4"] [("H2", 3), ("CH4", 1)]).getD 0 0
          * ([2, 16] : List doublereal).getD 0 0
          / sumXW [2, 16]
              (compositionMoles ["H2", "CH4"] [("H2", 3), ("CH4", 1)]) :=
  inlet_composition_roundtrip (Inlet1D.mk 300 (1/2) 1 0 2 [] "")
    [2, 16] [3, 1] ["H2", "CH4"] [("H2", 3), ("CH4", 1)] 0
    (by decide) (by norm_num [sumXW, List.range_succ])

/-! ### ReactorBase state accessors (C8) -/

/-- The zero-D `ReactorBase`, with the members its state accessors touch:
the state vector `m_state` laid out as temperature, density, then the mass
fractions. -/
structure ReactorBase where
  m_name : String
  m_vol : doublereal
  m_state : List doublereal
deriving DecidableEq, Repr

/-- `ReactorBase::temperature` (transcribed from the header): throws when
`m_state` is empty, otherwise returns `m_state[0]`. -/
def ReactorBase.temperature (r : ReactorBase) :
    Except CanteraError doublereal :=
  if r.m_state.isEmpty then
    .error ⟨"ReactorBase::temperature",
      "Reactor state empty and/or contents not defined."⟩
  else
    .ok (r.m_state.getD 0 0)

/-- `ReactorBase::density` (transcribed from the header): throws when
`m_state` is empty, otherwise returns `m_state[1]`. -/
def ReactorBase.density (r : ReactorBase) :
    Except CanteraError doublereal :=
  if r.m_state.isEmpty then
    .error ⟨"ReactorBase::density",
      "Reactor state empty and/or contents not defined."⟩
  else
    .ok (r.m_state.getD 1 0)

/-- `ReactorBase::massFractions` (transcribed from the header): throws when
`m_state` is empty, otherwise returns the state vector from index 2 on
(`m_state.data() + 2`). -/
def ReactorBase.massFractions (r : ReactorBase) :
    Except CanteraError (List doublereal) :=
  if r.m_state.isEmpty then
    .error ⟨"ReactorBase::massFractions",
      "Reactor state empty and/or contents not defined."⟩
  else
    .ok (r.m_state.drop 2)

/-- `ReactorBase::massFraction(k)` (transcribed from the header): throws
when `m_state` is empty, otherwise returns `m_state[k+2]`. -/
def ReactorBase.massFraction (r : ReactorBase) (k : Nat) :
    Except CanteraError doublereal :=
  if r.m_state.isEmpty then
    .error ⟨"ReactorBase::massFraction",
      "Reactor state empty and/or contents not defined."⟩
  else
    .ok (r.m_state.getD (k+2) 0)

/-- **C8**. Querying a derived state quantity before the state has been
populated raises an error at query time: `temperature`, `density`,
`massFractions` and `massFraction k` each throw on an empty state vector,
and on a populated state return the stored components `state[0]`,
`state[1]`, the slice from index 2, and `state[k+2]`. -/
theorem reactor_state_accessors (r0 r : ReactorBase) (k : Nat)
    (h0 : r0.m_state = []) (h : k + 2 < r.m_state.length) :
    r0.temperature = .error ⟨"ReactorBase::temperature",
      "Reactor state empty and/or contents not defined."⟩ ∧
    r0.density = .error ⟨"ReactorBase::density",
      "Reactor state empty and/or contents not defined."⟩ ∧
    r0.massFractions = .error ⟨"ReactorBase::massFractions",
      "Reactor state empty and/or contents not defined."⟩ ∧
    r0.massFraction k = .error ⟨"ReactorBase::massFraction",
      "Reactor state empty and/or contents not defined."⟩ ∧
    r.temperature = .ok (r.m_state.getD 0 0) ∧
    r.density = .ok (r.m_state.getD 1 0) ∧
    r.massFractions = .ok (r.m_state.drop 2) ∧
    r.massFraction k = .ok (r.m_state.get ⟨k + 2, h⟩) := by
  have hne : r.m_state.isEmpty = false := by
    cases hm : r.m_state with
    | nil => rw [hm] at h; simp at h
    | cons a t => simp
  refine ⟨?_, ?_, ?_, ?_, ?_, ?_, ?_, ?_⟩
  case refine_8 =>
    simp [ReactorBase.massFraction, hne, List.get_eq_getElem,
      List.getD, List.getElem?_eq_getElem h]
  all_goals
    simp [ReactorBase.temperature, ReactorBase.density,
      ReactorBase.massFractions, ReactorBase.massFraction, h0, hne]

/-- Witness for C8: an empty-state reactor throws everywhere; a reactor
with state `[300, 2, 1/4, 3/4]` returns its components. -/
theorem reactor_state_accessors_witness :
    (ReactorBase.mk "a" 1 []).temperature = .error ⟨"ReactorBase::temperature",
      "Reactor state empty and/or contents not defined."⟩ ∧
    (ReactorBase.mk "a" 1 []).density = .error ⟨"ReactorBase::density",
      "Reactor state empty and/or contents not defined."⟩ ∧
    (ReactorBase.mk "a" 1 []).massFractions
      = .error ⟨"ReactorBase::massFractions",
      "Reactor state empty and/or contents not defined."⟩ ∧
    (ReactorBase.mk "a" 1 []).massFraction 0
      = .error ⟨"ReactorBase::massFraction",
      "Reactor state empty and/or contents not defined."⟩ ∧
    (ReactorBase.mk "b" 1 [300, 2, 1/4, 3/4]).temperature
      = .ok (([300, 2, 1/4, 3/4] : List doublereal).getD 0 0) ∧
    (ReactorBase.mk "b" 1 [300, 2, 1/4, 3/4]).density
      = .ok (([300, 2, 1/4, 3/4] : List doublereal).getD 1 0) ∧
    (ReactorBase.mk "b" 1 [300, 2, 1/4, 3/4]).massFractions
      = .ok (([300, 2, 1/4, 3/4] : List doublereal).drop 2) ∧
    (ReactorBase.mk "b" 1 [300, 2, 1/4, 3/4]).massFraction 0
      = .ok (([300, 2, 1/4, 3/4] : List doublereal).get ⟨2, by decide⟩) :=
  reactor_state_accessors (ReactorBase.mk "a" 1 [])
    (ReactorBase.mk "b" 1 [300, 2, 1/4, 3/4]) 0 rfl (by decide)

end Cantera
